import Mathlib

/-!
Shallow embedding, in Lean 4, of the SIPSA data-pipeline's core parsing and
orchestration logic (`data-pipeline/processing/parser_base.py`,
`pdf_parser.py`, `zip_handler.py`, `processor.py` and
`data-pipeline/scraping/scraper_base.py`), together with theorems settling
the specification claims about it.

Conventions used throughout:
 - Python strings are Lean `String`s; character-level operations
   (`str.replace` with one-character patterns, `str.strip`, `str.lower`,
   `str.upper`) are modelled on `List Char`.
 - Python `float` values that can be produced by the pipeline's numeric
   parsing are modelled as `ℚ` with exact decimal semantics; `float(...)`
   applied to a string is modelled on the full CPython grammar of finite
   decimal literals (whitespace, sign, underscore digit groups, decimal
   point, `e`/`E` exponent); the IEEE special words `inf`/`infinity`/`nan`
   have no `ℚ` counterpart and are excluded by explicit hypotheses in the
   theorems whose truth could depend on them.
 - `None`-able values become `Option`; fallible operations return `Option`.
 - Regular-expression searches over whitespace-separated text are modelled
   as scans over the list of whitespace-separated tokens.
 - Database and object-storage collaborators are modelled by explicit
   environments recording, per call, the answer the collaborator would give
   (row found / upload outcome / created id), and state is passed
   explicitly.
-/

/-! ### Character-level helpers for Python string operations -/

/-- Python truthiness of an optional string (`None` and `""` are falsy). -/
def optStrTruthy : Option String → Bool
  | none => false
  | some s => s ≠ ""

/-- `str(c)` for a pdfplumber table cell (cells are `None` or strings). -/
def pyStrCell : Option String → String
  | none => "None"
  | some s => s

/-- Python `str.strip()` on a character list. -/
def pyStrip (l : List Char) : List Char :=
  ((l.dropWhile Char.isWhitespace).reverse.dropWhile Char.isWhitespace).reverse

/-- Python `str.lower()` restricted to the characters this pipeline
compares (ASCII plus the accented Spanish vowels and ñ). -/
def pyLowerChar (c : Char) : Char :=
  if c = 'Á' then 'á' else if c = 'É' then 'é' else if c = 'Í' then 'í'
  else if c = 'Ó' then 'ó' else if c = 'Ú' then 'ú' else if c = 'Ñ' then 'ñ'
  else c.toLower

/-- Python `str.upper()` restricted to the characters this pipeline
compares (ASCII plus the accented Spanish vowels and ñ). -/
def pyUpperChar (c : Char) : Char :=
  if c = 'á' then 'Á' else if c = 'é' then 'É' else if c = 'í' then 'Í'
  else if c = 'ó' then 'Ó' else if c = 'ú' then 'Ú' else if c = 'ñ' then 'Ñ'
  else c.toUpper

def pyLower (s : String) : String := ⟨s.data.map pyLowerChar⟩

def pyUpper (s : String) : String := ⟨s.data.map pyUpperChar⟩

/-- Substring occurrence on character lists. -/
def listHasSub (hay needle : List Char) : Bool :=
  needle.isPrefixOf hay ||
    match hay with
    | [] => false
    | _ :: t => listHasSub t needle

/-- Python's `needle in haystack` substring test. -/
def strContains (hay needle : String) : Bool :=
  listHasSub hay.data needle.data

/-- Helper for `pyTokens`: structural tokenizer with an accumulator of
the current token's characters in reverse. -/
def tokenizeAux : List Char → List Char → List String
  | [], acc => if acc = [] then [] else [⟨acc.reverse⟩]
  | c :: rest, acc =>
    if c.isWhitespace then
      (if acc = [] then [] else [⟨acc.reverse⟩]) ++ tokenizeAux rest []
    else
      tokenizeAux rest (c :: acc)

/-- Python `text.split()`: split on whitespace runs, dropping empties. -/
def pyTokens (s : String) : List String :=
  tokenizeAux s.data []

/-- Value of a list of decimal digit characters. -/
def digitsToNat (l : List Char) : Nat :=
  l.foldl (fun a c => a * 10 + (c.toNat - 48)) 0

/-- A non-empty all-digit string (what `\d+` / `str.isdigit` accept here). -/
def isDigitStr (s : String) : Bool :=
  s.length > 0 && s.data.all Char.isDigit

/-! ### `parse_price` (`processing/parser_base.py`)

`parse_price` accepts `None`, numeric values, or strings.  We model the
input by the `PriceCell` inductive.  `float(...)` on the cleaned string is
modelled by `pyFloatChars` on its characters, covering the full CPython
grammar of finite decimal literals: surrounding whitespace, an optional
sign, ASCII digit groups with single underscores strictly between digits,
at most one decimal point, and an optional `e`/`E` exponent with its own
optional sign — so exponent literals such as `1e-5`, which the cleaning
leaves intact, parse exactly as in Python.  The word forms
`inf`/`infinity`/`nan` (any case) denote IEEE special values with no
counterpart in `ℚ` and are modelled as parse failures; every theorem
whose truth could depend on them excludes them by an explicit hypothesis
on the input's characters. -/

inductive PriceCell where
  | nullc : PriceCell
  | numc (q : ℚ) : PriceCell
  | strc (s : String) : PriceCell
  deriving DecidableEq, Repr

/-- Sign handling of Python `float(string)`: one leading `-` or `+`. -/
def pyFloatSign (l : List Char) : Bool × List Char :=
  match l with
  | [] => (false, l)
  | c :: r =>
    if c = '-' then (true, r)
    else if c = '+' then (false, r)
    else (false, l)

/-- Not the decimal point. -/
def notDotChar (c : Char) : Bool := c ≠ '.'

/-- Not an exponent marker. -/
def notExpChar (c : Char) : Bool := c ≠ 'e' && c ≠ 'E'

/-- No two adjacent underscores. -/
def noDoubleUnderscore : List Char → Bool
  | [] => true
  | [_] => true
  | a :: b :: rest => !(a = '_' && b = '_') && noDoubleUnderscore (b :: rest)

/-- A CPython digit group: decimal digits with single underscores
strictly between digits (`1_000` is valid; `_1`, `1_` and `1__0` are
not). -/
def validDigitGroup (l : List Char) : Bool :=
  !l.isEmpty && l.all (fun c => c.isDigit || c = '_') &&
  (l.headD '_').isDigit && (l.getLastD '_').isDigit && noDoubleUnderscore l

/-- Numeric value of a digit group (underscores ignored). -/
def digitGroupVal (l : List Char) : Nat :=
  digitsToNat (l.filter Char.isDigit)

/-- The `digits [. digits]` mantissa of a float literal: at least one
digit overall, each part a valid digit group when present (`5`, `5.`,
`.5`, `1_0.2_5` are valid; `.`, `1_.5`, `1._5` are not). -/
def pyFloatMantissa (l : List Char) : Option ℚ :=
  let ip := l.takeWhile notDotChar
  let rest := l.dropWhile notDotChar
  let fp := rest.tail
  if (ip.isEmpty || validDigitGroup ip) && (fp.isEmpty || validDigitGroup fp) &&
      !(ip.isEmpty && fp.isEmpty) then
    some ((digitGroupVal ip : ℚ) +
      (digitGroupVal fp : ℚ) / (10 : ℚ) ^ (fp.filter Char.isDigit).length)
  else
    none

/-- Model of Python `float(string)` on finite decimal literals: strip
whitespace, read one optional sign, split at the first `e`/`E` into a
mantissa and an optional signed exponent. -/
def pyFloatChars (l : List Char) : Option ℚ :=
  let stripped := pyStrip l
  let neg := (pyFloatSign stripped).1
  let body := (pyFloatSign stripped).2
  let mantPart := body.takeWhile notExpChar
  let expPart := body.dropWhile notExpChar
  match pyFloatMantissa mantPart with
  | none => none
  | some mag =>
    match expPart with
    | [] => some (if neg then -mag else mag)
    | _ :: expBody =>
      let eneg := (pyFloatSign expBody).1
      let edig := (pyFloatSign expBody).2
      if validDigitGroup edig then
        let v := mag * (10 : ℚ) ^
          (if eneg then -(digitGroupVal edig : ℤ) else (digitGroupVal edig : ℤ))
        some (if neg then -v else v)
      else
        none

/-- The cleaning step of `parse_price`:
`price_str.replace('.', '').replace(',', '.')`. -/
def cleanedPriceChars (t : List Char) : List Char :=
  (t.filter (· ≠ '.')).map (fun c => if c = ',' then '.' else c)

/-- `parse_price` from `parser_base.py` lines 63-96: numeric inputs pass
through when positive; strings are stripped, the literals `''`, `'n.d.'`
(case-insensitively) and `'0'` yield `none`, otherwise every `'.'` is
removed, `','` becomes `'.'`, and the result is parsed as a float, kept
only when positive. -/
def parse_price (cell : PriceCell) : Option ℚ :=
  match cell with
  | .nullc => none
  | .numc q => if 0 < q then some q else none
  | .strc s =>
    let t := pyStrip s.data
    if t = [] || t.map pyLowerChar = "n.d.".data || t = ['0'] then
      none
    else
      match pyFloatChars (cleanedPriceChars t) with
      | some v => if 0 < v then some v else none
      | none => none

/-! ### Spanish date parsing (`parser_base.py`, `scraper_base.py`) -/

/-- The fixed 12-entry month table of `parse_spanish_date`. -/
def spanishMonths : List (String × String) :=
  [("enero", "01"), ("febrero", "02"), ("marzo", "03"), ("abril", "04"),
   ("mayo", "05"), ("junio", "06"), ("julio", "07"), ("agosto", "08"),
   ("septiembre", "09"), ("octubre", "10"), ("noviembre", "11"),
   ("diciembre", "12")]

/-- `MONTHS_ES_REVERSE` from `config.py` (month name → month number). -/
def monthsEsReverse : List (String × Nat) :=
  [("enero", 1), ("febrero", 2), ("marzo", 3), ("abril", 4),
   ("mayo", 5), ("junio", 6), ("julio", 7), ("agosto", 8),
   ("septiembre", 9), ("octubre", 10), ("noviembre", 11), ("diciembre", 12)]

/-- Association-list lookup (`dict.get`). -/
def alistLookup {α : Type} (l : List (String × α)) (k : String) : Option α :=
  match l with
  | [] => none
  | (k', v) :: rest => if k' = k then some v else alistLookup rest k

/-- A `\w+` word token (letters, digits, underscore, Spanish accents). -/
def isWordStr (s : String) : Bool :=
  s.length > 0 && s.data.all fun c =>
    c.isAlphanum || c = '_' ||
    c ∈ ['á', 'é', 'í', 'ó', 'ú', 'Á', 'É', 'Í', 'Ó', 'Ú', 'ñ', 'Ñ']

/-- Model of `re.search(r'(\d{1,2})\s+de\s+(\w+)\s+de\s+(\d{4})', s, I)`:
scan the whitespace-separated tokens for the first window
`[day, "de", month, "de", year]` and return the groups. -/
def findDateGroups : List String → Option (String × String × String)
  | [] => none
  | d :: rest =>
    match rest with
    | de1 :: m :: de2 :: y :: _ =>
      if isDigitStr d && d.length ≤ 2 && pyLower de1 = "de" && isWordStr m &&
          pyLower de2 = "de" && isDigitStr y && y.length = 4 then
        some (d, m, y)
      else
        findDateGroups rest
    | _ => findDateGroups rest

/-- Python `day.zfill(2)` for the 1-2 digit day strings produced above. -/
def zfill2 (s : String) : String :=
  if s.length ≥ 2 then s else "0" ++ s

/-- `parse_spanish_date` from `parser_base.py` lines 22-60.  The second
regex of the source (`(?:\w+\s+)?...`) matches exactly when the first one
does under `re.search`, so a single group search suffices.  Note the
source's `months.get(match.group(2).lower(), '01')`: an unrecognized
month name silently becomes `'01'`. -/
def parse_spanish_date (s : String) : Option String :=
  match findDateGroups (pyTokens s) with
  | some (d, m, y) =>
    some (y ++ "-" ++ (alistLookup spanishMonths (pyLower m)).getD "01" ++ "-" ++ zfill2 d)
  | none => none

/-- A Python `datetime` value (time-of-day fields unused by the code). -/
structure PyDate where
  year : Nat
  month : Nat
  day : Nat
  deriving DecidableEq, Repr

/-- Days in a month of the proleptic Gregorian calendar (Python
`calendar`/`datetime` rules). -/
def daysInMonth (y m : Nat) : Nat :=
  if m = 2 then
    if y % 4 = 0 && (y % 100 ≠ 0 || y % 400 = 0) then 29 else 28
  else if m ∈ [4, 6, 9, 11] then 30
  else 31

/-- The `datetime(year, month, day)` constructor: raises `ValueError`
(modelled as `none`) outside the valid calendar range. -/
def mkDatetime (y m d : Nat) : Option PyDate :=
  if 1 ≤ y ∧ 1 ≤ m ∧ m ≤ 12 ∧ 1 ≤ d ∧ d ≤ daysInMonth y m then
    some ⟨y, m, d⟩
  else
    none

/-- A `[a-záéíóú]+` token (the month group of `parse_date_from_text`;
the text has already been lowercased). -/
def isSpanishAlphaStr (s : String) : Bool :=
  s.length > 0 && s.data.all fun c =>
    ('a' ≤ c && c ≤ 'z') || c ∈ ['á', 'é', 'í', 'ó', 'ú']

/-- Model of `re.search(r'(\d{1,2})\s+de\s+([a-záéíóú]+)(?:\s+de)?\s+(\d{4})', t)`
on lowercased text: first token window `[d, "de", m, ("de",)? y]`. -/
def findDateGroupsEs : List String → Option (String × String × String)
  | [] => none
  | d :: rest =>
    match rest with
    | de1 :: m :: tail =>
      if isDigitStr d && d.length ≤ 2 && de1 = "de" && isSpanishAlphaStr m then
        match tail with
        | y :: _ =>
          if isDigitStr y && y.length = 4 then some (d, m, y)
          else match tail with
            | _ :: y' :: _ =>
              if tail.headD "" = "de" && isDigitStr y' && y'.length = 4 then
                some (d, m, y')
              else findDateGroupsEs rest
            | _ => findDateGroupsEs rest
        | _ => findDateGroupsEs rest
      else
        findDateGroupsEs rest
    | _ => findDateGroupsEs rest

/-- Model of `re.search(r'(\d{1,2})\s+de\s+([a-záéíóú]+)', t)`. -/
def findDayMonthEs : List String → Option (String × String)
  | [] => none
  | d :: rest =>
    match rest with
    | de1 :: m :: _ =>
      if isDigitStr d && d.length ≤ 2 && de1 = "de" && isSpanishAlphaStr m then
        some (d, m)
      else
        findDayMonthEs rest
    | _ => findDayMonthEs rest

/-- String → Nat for all-digit strings (`int(...)`). -/
def strToNat (s : String) : Nat := digitsToNat s.data

/-- `ScraperBase.parse_date_from_text` (`scraper_base.py` lines 254-293):
lowercase and trim the text, try the with-year pattern (month looked up in
the 12-entry table, invalid calendar dates fall through), then, when a
truthy default year was supplied, the without-year pattern. -/
def parse_date_from_text (text : String) (default_year : Option Nat) : Option PyDate :=
  if text = "" then none
  else
    let t := pyLower ⟨pyStrip text.data⟩
    let toks := pyTokens t
    let withYear : Option PyDate :=
      match findDateGroupsEs toks with
      | some (d, m, y) =>
        match alistLookup monthsEsReverse m with
        | some mo => mkDatetime (strToNat y) mo (strToNat d)
        | none => none
      | none => none
    match withYear with
    | some dt => some dt
    | none =>
      match default_year with
      | some dy =>
        if dy = 0 then none
        else
          match findDayMonthEs toks with
          | some (d, m) =>
            match alistLookup monthsEsReverse m with
            | some mo => mkDatetime dy mo (strToNat d)
            | none => none
          | none => none
      | none => none

/-! ### PDF table rows (`processing/pdf_parser.py`)

pdfplumber table cells are `None` or strings: a row is `List (Option String)`.
`parse_price` is called on such cells through `ofPdfCell`. -/

/-- A pdfplumber table row. -/
abbrev PdfRow := List (Option String)

/-- Lift a pdfplumber cell into `parse_price`'s input type. -/
def ofPdfCell : Option String → PriceCell
  | none => .nullc
  | some s => .strc s

/-- Join a list of strings with single spaces (`' '.join(...)`). -/
def joinSpace : List String → String
  | [] => ""
  | [s] => s
  | s :: rest => s ++ " " ++ joinSpace rest

/-- `clean_text` from `parser_base.py` lines 196-209: falsy input yields
`""`; otherwise whitespace runs collapse to single spaces. -/
def clean_text (s : String) : String :=
  if s = "" then "" else joinSpace (pyTokens s)

/-- `clean_text` applied to an optional cell (`clean_text(None) == ""`). -/
def clean_text_cell (c : Option String) : String :=
  match c with
  | none => ""
  | some s => clean_text s

/-- The keyword list of `is_header_row`. -/
def headerKeywords : List String :=
  ["PRECIOS", "PRODUCTO", "MÍNIMO", "MÁXIMO", "PAGINA", "RONDA", "PRESENTACIÓN"]

/-- `is_header_row` from `parser_base.py` lines 177-193. -/
def is_header_row (row : PdfRow) : Bool :=
  match row with
  | [] => false
  | c0 :: _ =>
    optStrTruthy c0 &&
      headerKeywords.any fun kw =>
        strContains (pyUpper ⟨pyStrip (pyStrCell c0).data⟩) kw

/-- One cell's test inside `row_has_price_data`: non-empty, not `n.d.`,
and, once `.` and `,` are dropped, a positive all-digit number. -/
def cell_signals_price (c : Option String) : Bool :=
  match c with
  | none => false
  | some s =>
    let t := pyStrip s.data
    if t = [] || t.map pyLowerChar = "n.d.".data then false
    else
      let cleaned := t.filter (fun ch => ch ≠ '.' && ch ≠ ',')
      cleaned ≠ [] && cleaned.all Char.isDigit && digitsToNat cleaned > 0

/-- `row_has_price_data` from `parser_base.py` lines 147-174 with the
default `price_col_start = 3`. -/
def row_has_price_data (row : PdfRow) : Bool :=
  row.length > 3 && (row.drop 3).any cell_signals_price

/-- `PDFParser._detect_rounds` (`pdf_parser.py` lines 275-284): the first
row whose joined truthy cells mention `Ronda 3` (resp. `Ronda 2`) decides
3 (resp. 2) rounds; otherwise 1. -/
def detect_rounds : List PdfRow → Nat
  | [] => 1
  | row :: rest =>
    if row ≠ [] then
      let rowText := joinSpace ((row.filterMap id).filter (· ≠ ""))
      if strContains rowText "Ronda 3" then 3
      else if strContains rowText "Ronda 2" then 2
      else detect_rounds rest
    else detect_rounds rest

/-- A price record as far as the claims are concerned (`ProcessedPrice`
from `backend/database.py`; the date/location/tracking-id columns, which
are copied through verbatim, are omitted). -/
structure ProcessedPrice where
  category : String
  subcategory : String
  product : String
  presentation : String
  units : String
  round : Nat
  min_price : Option ℚ
  max_price : Option ℚ
  deriving DecidableEq, Repr

/-- `PDFParser._extract_prices_from_row` (`pdf_parser.py` lines 286-354):
columns 3-4 give a round-1 record when at least one parses; columns 5-6
give a round-2 record when the row has ≥ 7 columns, ≥ 2 rounds were
detected, both values parse and at least one is positive. -/
def extract_prices_from_row (row : PdfRow) (category subcategory : String)
    (num_rounds : Nat) : List ProcessedPrice :=
  let product := clean_text_cell (row.getD 0 none)
  let presentation :=
    if row.length > 1 && optStrTruthy (row.getD 1 none) then
      clean_text_cell (row.getD 1 none)
    else ""
  let units :=
    if row.length > 2 && optStrTruthy (row.getD 2 none) then
      clean_text_cell (row.getD 2 none)
    else ""
  let round1 : List ProcessedPrice :=
    if row.length ≥ 5 then
      let min1 := parse_price (ofPdfCell (row.getD 3 none))
      let max1 := parse_price (ofPdfCell (row.getD 4 none))
      if min1 ≠ none || max1 ≠ none then
        [{ category, subcategory, product, presentation, units,
           round := 1, min_price := min1, max_price := max1 }]
      else []
    else []
  let round2 : List ProcessedPrice :=
    if row.length ≥ 7 && num_rounds ≥ 2 then
      let min2 := parse_price (ofPdfCell (row.getD 5 none))
      let max2 := parse_price (ofPdfCell (row.getD 6 none))
      if min2 ≠ none && max2 ≠ none &&
          (min2.getD 0 > 0 || max2.getD 0 > 0) then
        [{ category, subcategory, product, presentation, units,
           round := 2, min_price := min2, max_price := max2 }]
      else []
    else []
  round1 ++ round2

/-- The stack-resolution step of `PDFParser.parse` (`pdf_parser.py` lines
131-149), performed on reaching a product row.  The stack is a Python
list: pushes append on the right, `pop()` takes the rightmost element.
Returns the resolved `(category, subcategory, remaining stack, defect?)`
where the flag records whether an `unused_stack_items` defect is logged. -/
def resolveStack (stack : List String) (category subcategory : String) :
    String × String × List String × Bool :=
  if stack.length ≥ 2 then
    let sub' := stack.getLastD ""
    let rest := stack.dropLast
    let cat' := rest.getLastD ""
    let leftover := rest.dropLast
    (cat', sub', [], !leftover.isEmpty)
  else if stack.length = 1 then
    (category, stack.getLastD "", [], false)
  else
    (category, subcategory, stack, false)

/-- The mutable state of `PDFParser.parse`'s row loop. -/
structure ParseState where
  stack : List String
  category : String
  subcategory : String
  defects : List String
  prices : List ProcessedPrice
  deriving Repr

/-- One iteration of `PDFParser.parse`'s row loop (`pdf_parser.py` lines
119-192): skip falsy-first-cell and header rows; on a product row resolve
the stack, log `unused_stack_items`/`missing_category` defects and emit
price records; otherwise push the cleaned first cell (when non-empty). -/
def step_row (num_rounds : Nat) (st : ParseState) (row : PdfRow) : ParseState :=
  match row with
  | [] => st
  | c0 :: _ =>
    if !optStrTruthy c0 then st
    else
      let first_cell : String := ⟨pyStrip (pyStrCell c0).data⟩
      if is_header_row row || first_cell = "" then st
      else if row_has_price_data row then
        let r := resolveStack st.stack st.category st.subcategory
        let cat := r.1
        let sub := r.2.1
        let stack' := r.2.2.1
        let defects :=
          st.defects ++ (if r.2.2.2 then ["unused_stack_items"] else [])
        if cat = "" then
          { stack := stack', category := cat, subcategory := sub,
            defects := defects ++ ["missing_category"], prices := st.prices }
        else
          { stack := stack', category := cat, subcategory := sub,
            defects := defects,
            prices := st.prices ++ extract_prices_from_row row cat sub num_rounds }
      else
        let header_text := clean_text first_cell
        if header_text ≠ "" then { st with stack := st.stack ++ [header_text] }
        else st

/-- The whole row loop of `PDFParser.parse` over the collected table rows. -/
def run_rows (num_rounds : Nat) (rows : List PdfRow) (st : ParseState) : ParseState :=
  rows.foldl (step_row num_rounds) st

/-! ### Page-format selection (`scraping/scraper_base.py`) -/

/-- Python `datetime` comparison is lexicographic on the date fields. -/
def pyDateGe (a b : PyDate) : Bool :=
  if a.year = b.year then
    if a.month = b.month then decide (a.day ≥ b.day)
    else decide (a.month > b.month)
  else decide (a.year > b.year)

/-- `ScraperBase._get_page_format` (`scraper_base.py` lines 295-320). -/
def get_page_format (target_date : Option PyDate) : String :=
  match target_date with
  | none => "current"
  | some t =>
    if pyDateGe t ⟨2020, 3, 1⟩ then "four_column"
    else if pyDateGe t ⟨2015, 12, 1⟩ then "three_column"
    else if pyDateGe t ⟨2012, 8, 1⟩ then "bullet_list"
    else "simple_links"

/-- The extraction strategy dispatched on the page format. -/
inductive ExtractStrategy where
  | fourColumnTable
  | threeColumnTable
  | bulletListScan
  | simpleLinkScan
  | noStrategy
  deriving DecidableEq, Repr

/-- The dispatch at the head of `ScraperBase.extract_links_from_page`
(`scraper_base.py` lines 574-586): which format-specific extractor runs. -/
def chooseStrategy (fmt : String) : ExtractStrategy :=
  if fmt = "four_column" || fmt = "current" then .fourColumnTable
  else if fmt = "three_column" then .threeColumnTable
  else if fmt = "bullet_list" then .bulletListScan
  else if fmt = "simple_links" then .simpleLinkScan
  else .noStrategy

/-- Calendar order on dates, stated independently of the code's
comparison: strictly earlier year, or same year and strictly earlier
month, or same year and month and no later day. -/
def dateLe (a b : PyDate) : Prop :=
  a.year < b.year ∨
    (a.year = b.year ∧ (a.month < b.month ∨ (a.month = b.month ∧ a.day ≤ b.day)))

instance (a b : PyDate) : Decidable (dateLe a b) := by
  unfold dateLe; infer_instance

/-! ### Archive expansion (`processing/zip_handler.py`)

`ZIPHandler.extract_and_store` walks the PDFs found in a ZIP.  For each
one, the collaborators' answers (the database row at the derived storage
path, the storage upload outcome, the id returned by the database create)
are recorded in a `ZipItem`; the per-item control flow of lines 99-162 is
`zipItemStep`, and the whole walk folds the outcomes into an
`ExtractionResult`. -/

/-- What `get_extracted_pdf_by_storage_path` answers for one item. -/
inductive ExistingDoc where
  | absent
  | processedDoc (id : Nat)
  | unprocessedDoc (id : Nat)
  deriving DecidableEq, Repr

/-- What `storage.upload_from_file` answers for one item. -/
inductive UploadOutcome where
  | uploadOk
  | uploadFail (msg : String)
  deriving DecidableEq, Repr

/-- Collaborator answers for one embedded PDF of the archive. -/
structure ZipItem where
  existing : ExistingDoc
  upload : UploadOutcome
  dbCreate : Option Nat
  deriving Repr

/-- What happens to one embedded PDF. -/
inductive ItemOutcome where
  | skippedProcessed
  | reusedId (id : Nat)
  | createdDoc (id : Nat)
  | failedUpload
  deriving DecidableEq, Repr

/-- Per-item control flow of `extract_and_store` (`zip_handler.py` lines
111-162): an existing processed row is skipped, an existing unprocessed
row is reused by id; otherwise the bytes are uploaded and a database row
is created — an upload rejection whose message mentions `already exists`
or `duplicate` still creates the database row; any other upload failure,
or a failed database create, counts as a failed upload. -/
def zipItemStep (it : ZipItem) : ItemOutcome :=
  match it.existing with
  | .processedDoc _ => .skippedProcessed
  | .unprocessedDoc id => .reusedId id
  | .absent =>
    let shouldCreate :=
      match it.upload with
      | .uploadOk => true
      | .uploadFail msg =>
        strContains (pyLower msg) "already exists" ||
          strContains (pyLower msg) "duplicate"
    if shouldCreate then
      match it.dbCreate with
      | some id => .createdDoc id
      | none => .failedUpload
    else .failedUpload

/-- `ExtractionResult` from `zip_handler.py` lines 26-38. -/
structure ExtractionResult where
  pdf_ids : List Nat
  total_found : Nat
  already_processed : Nat
  newly_extracted : Nat
  failed_uploads : Nat
  deriving DecidableEq, Repr

/-- The `success` property: `failed_uploads == 0`. -/
def ExtractionResult.success (r : ExtractionResult) : Bool :=
  r.failed_uploads == 0

/-- How one item outcome updates the running `ExtractionResult` counters
(the `continue`-driven accumulation of `extract_and_store`'s loop). -/
def zipFoldStep (acc : ExtractionResult) (it : ZipItem) : ExtractionResult :=
  match zipItemStep it with
  | .skippedProcessed => { acc with already_processed := acc.already_processed + 1 }
  | .reusedId id => { acc with pdf_ids := acc.pdf_ids ++ [id] }
  | .createdDoc id =>
    { acc with pdf_ids := acc.pdf_ids ++ [id],
               newly_extracted := acc.newly_extracted + 1 }
  | .failedUpload => { acc with failed_uploads := acc.failed_uploads + 1 }

/-- `ZIPHandler.extract_and_store` over the per-item collaborator
answers: fold the item outcomes into the result counters. -/
def extract_and_store (items : List ZipItem) : ExtractionResult :=
  items.foldl zipFoldStep
    { pdf_ids := [], total_found := items.length, already_processed := 0,
      newly_extracted := 0, failed_uploads := 0 }

/-! ### The orchestrator (`processing/processor.py`) -/

/-- `download_entries.file_type` values routed by `_process_entry`. -/
inductive FileKind where
  | zipKind
  | pdfKind
  | excelKind
  deriving DecidableEq, Repr

/-- The fields of a download entry that `_process_entry` consults. -/
structure Entry where
  id : Nat
  ftype : FileKind
  storage_path : String
  deriving DecidableEq, Repr

/-- Outcome of `_process_pdf` / `_process_excel` for one document:
how many prices were inserted and which error types came back. -/
structure DocOutcome where
  prices : Nat
  errors : List String
  deriving DecidableEq, Repr

/-- Collaborator answers consumed while processing one entry.
`raises` models an exception escaping the `try` body of
`_process_entry` (caught at `processor.py` line 327); in that case the
totals are the ones from before the failing call, which we take at the
start of the body. -/
structure EntryEnv where
  zipItems : List ZipItem
  zipPdfs : List DocOutcome
  doc : DocOutcome
  raises : Bool
  deriving Repr

/-- `ProcessingResult` from `processor.py` lines 35-42. -/
structure EntryResult where
  entry_id : Nat
  prices_extracted : Nat
  errors_count : Nat
  success : Bool
  deriving DecidableEq, Repr

/-- What `_process_entry` persisted: the error types written through
`create_processing_error`, and whether `update_download_entry_status(id,
True)` was called. -/
structure EntryEffects where
  persistedErrors : List String
  markedProcessed : Bool
  deriving DecidableEq, Repr

/-- `DataProcessor._process_zip` (`processor.py` lines 347-400): expand
the archive, then process each unprocessed PDF, appending one
`no_prices_extracted` error for a PDF that produced zero prices and zero
errors.  Returns `(total_prices, errors, extraction_success)`. -/
def process_zip (items : List ZipItem) (pdfs : List DocOutcome) :
    Nat × List String × Bool :=
  let er := extract_and_store items
  let folded :=
    pdfs.foldl
      (fun (acc : Nat × List String) p =>
        (acc.1 + p.prices,
         acc.2 ++ p.errors ++
           (if p.prices = 0 && p.errors.isEmpty then ["no_prices_extracted"] else [])))
      (0, [])
  (folded.1, folded.2, er.success)

/-- The tail of `_process_entry`'s `try` body (`processor.py` lines
300-325) plus the final `ProcessingResult` (lines 340-345): persist the
branch errors, add one `no_prices_extracted` error when zero prices
resulted, refuse to mark a ZIP whose expansion had failures, and report
success only when nothing failed *and* at least one price was extracted. -/
def finishEntry (e : Entry) (total_prices : Nat) (all_errors : List String)
    (extraction_success : Bool) : EntryResult × EntryEffects :=
  let persisted :=
    if total_prices = 0 then all_errors ++ ["no_prices_extracted"] else all_errors
  let total_errors :=
    if total_prices = 0 then all_errors.length + 1 else all_errors.length
  let blocked := e.ftype = FileKind.zipKind && !extraction_success
  let succ := !blocked && total_prices > 0
  ({ entry_id := e.id, prices_extracted := total_prices,
     errors_count := total_errors, success := succ },
   { persistedErrors := persisted, markedProcessed := !blocked })

/-- `DataProcessor._process_entry` (`processor.py` lines 217-345). -/
def process_entry (e : Entry) (env : EntryEnv) : EntryResult × EntryEffects :=
  if env.raises then
    ({ entry_id := e.id, prices_extracted := 0, errors_count := 0,
       success := false },
     { persistedErrors := ["processing_failed"], markedProcessed := false })
  else
    match e.ftype with
    | .zipKind =>
      let z := process_zip env.zipItems env.zipPdfs
      finishEntry e z.1 z.2.1 z.2.2
    | .pdfKind =>
      if strContains e.storage_path "/pdf/" then
        ({ entry_id := e.id, prices_extracted := 0, errors_count := 0,
           success := true },
         { persistedErrors := [], markedProcessed := true })
      else
        finishEntry e env.doc.prices env.doc.errors true
    | .excelKind =>
      finishEntry e env.doc.prices env.doc.errors true

/-- The error list produced by the file-type branch of `_process_entry`
(the `all_errors` accumulated in lines 239-298), for stating what the
final persistence adds beyond it. -/
def entryBranchErrors (e : Entry) (env : EntryEnv) : List String :=
  match e.ftype with
  | .zipKind => (process_zip env.zipItems env.zipPdfs).2.1
  | _ => env.doc.errors

/-- The summary counters of `process_all_pending`
(`processor.py` lines 123-145). -/
structure RunSummary where
  total : Nat
  succeeded : Nat
  failed : Nat
  deriving DecidableEq, Repr

/-- Summarize the per-entry results (`processor.py` lines 123-127). -/
def summarize (rs : List EntryResult) : RunSummary :=
  { total := rs.length,
    succeeded := (rs.filter (fun r => r.success)).length,
    failed := (rs.filter (fun r => !r.success)).length }

/-- `main` (`processor.py` lines 584-585): exit 0 iff no entry failed. -/
def mainExitCode (rs : List EntryResult) : Nat :=
  if (summarize rs).failed = 0 then 0 else 1

/-! ### Download dedup (`scraper_base.py` lines 619-763)

The download-entries table is modelled by the association of
`download_link` to entry id; `download_and_store_file`'s effect on it is
`download_and_store`, with the network/storage collaborator outcomes
supplied as arguments. -/

/-- The download_entries table restricted to the columns consulted here. -/
structure DownloadDB where
  entriesByLink : List (String × Nat)
  deriving DecidableEq, Repr

/-- `DatabaseClient.get_download_entry_by_link`. -/
def get_download_entry_by_link (db : DownloadDB) (link : String) : Option Nat :=
  match db.entriesByLink.find? (fun p => p.1 == link) with
  | some p => some p.2
  | none => none

/-- `ScraperBase.is_already_downloaded` (`scraper_base.py` lines 619-622). -/
def is_already_downloaded (db : DownloadDB) (link : String) : Bool :=
  (get_download_entry_by_link db link).isSome

/-- `ScraperBase.download_and_store_file` (`scraper_base.py` lines
648-763) at the level of the entries table: dry runs and already-known
URLs change nothing; otherwise, when the download and the upload succeed
and the database accepts the row, one new entry keyed by the URL is
created.  `downloadOk`/`uploadOk` are the HTTP and storage collaborator
outcomes and `newId` the id the database would assign. -/
def download_and_store (dry_run : Bool) (db : DownloadDB) (url : String)
    (downloadOk uploadOk : Bool) (newId : Nat) : DownloadDB × Option Nat :=
  if dry_run then (db, none)
  else if is_already_downloaded db url then (db, none)
  else if !downloadOk then (db, none)
  else if !uploadOk then (db, none)
  else ({ entriesByLink := db.entriesByLink ++ [(url, newId)] }, some newId)

/-- How many download entries exist for a URL. -/
def countByLink (db : DownloadDB) (url : String) : Nat :=
  (db.entriesByLink.filter (fun p => p.1 == url)).length

/-! ## Shared lemmas -/

theorem resolveStack_two (pre : List String) (a b cat sub : String) :
    resolveStack (pre ++ [a, b]) cat sub = (a, b, [], !pre.isEmpty) := by
  unfold resolveStack
  have h2 : (pre ++ [a, b]).length ≥ 2 := by simp
  rw [if_pos h2]
  have e1 : pre ++ [a, b] = (pre ++ [a]) ++ [b] := by simp
  rw [e1]
  simp [List.getLastD_concat, List.dropLast_concat]

theorem resolveStack_one (a cat sub : String) :
    resolveStack [a] cat sub = (cat, a, [], false) := by
  simp [resolveStack]

theorem resolveStack_nil (cat sub : String) :
    resolveStack [] cat sub = (cat, sub, [], false) := by
  simp [resolveStack]

theorem parse_price_pos (c : PriceCell) (v : ℚ) (h : parse_price c = some v) :
    0 < v := by
  cases c with
  | nullc => simp [parse_price] at h
  | numc q =>
    simp only [parse_price] at h
    split at h
    · cases h; assumption
    · cases h
  | strc s =>
    simp only [parse_price] at h
    split at h
    · cases h
    · split at h
      · split at h
        · cases h; assumption
        · cases h
      · cases h

theorem pyFloatSign_snd_subset (l : List Char) :
    ∀ x ∈ (pyFloatSign l).2, x ∈ l := by
  cases l with
  | nil => simp [pyFloatSign]
  | cons c r =>
    intro x hx
    by_cases h1 : c = '-' <;> by_cases h2 : c = '+' <;>
      simp [pyFloatSign, h1, h2] at hx <;> simp [hx]

theorem pyStrip_subset (l : List Char) : ∀ x ∈ pyStrip l, x ∈ l := by
  intro x hx
  unfold pyStrip at hx
  rw [List.mem_reverse] at hx
  have h1 := (List.dropWhile_sublist (l := (l.dropWhile Char.isWhitespace).reverse)
    (p := Char.isWhitespace)).subset hx
  rw [List.mem_reverse] at h1
  exact (List.dropWhile_sublist (l := l) (p := Char.isWhitespace)).subset h1

theorem pyFloatMantissa_no_dot (l : List Char) (hd : '.' ∉ l) (q : ℚ)
    (h : pyFloatMantissa l = some q) : ∃ n : Nat, q = (n : ℚ) := by
  unfold pyFloatMantissa at h
  have hdrop : l.dropWhile notDotChar = [] := by
    rw [List.dropWhile_eq_nil_iff]
    intro x hx
    simp only [notDotChar, decide_eq_true_eq]
    exact fun hc => hd (hc ▸ hx)
  simp only [hdrop] at h
  split at h
  · cases h
    exact ⟨digitGroupVal (l.takeWhile notDotChar), by simp [digitGroupVal, digitsToNat]⟩
  · cases h

theorem pyFloatChars_int (l : List Char) (hd : '.' ∉ l) (hel : 'e' ∉ l)
    (hEl : 'E' ∉ l) (v : ℚ) (h : pyFloatChars l = some v) :
    ∃ n : Nat, v = (n : ℚ) ∨ v = -(n : ℚ) := by
  unfold pyFloatChars at h
  have hsub : ∀ x ∈ (pyFloatSign (pyStrip l)).2, x ∈ l := fun x hx =>
    pyStrip_subset l x (pyFloatSign_snd_subset _ x hx)
  have hnexp : ∀ x ∈ (pyFloatSign (pyStrip l)).2, notExpChar x = true := by
    intro x hx
    have hxl := hsub x hx
    simp only [notExpChar, Bool.and_eq_true, decide_eq_true_eq]
    exact ⟨fun hc => hel (hc ▸ hxl), fun hc => hEl (hc ▸ hxl)⟩
  have hexp : (pyFloatSign (pyStrip l)).2.dropWhile notExpChar = [] :=
    List.dropWhile_eq_nil_iff.2 hnexp
  have hmant : (pyFloatSign (pyStrip l)).2.takeWhile notExpChar =
      (pyFloatSign (pyStrip l)).2 :=
    List.takeWhile_eq_self_iff.2 hnexp
  simp only [hexp, hmant] at h
  have hdbody : '.' ∉ (pyFloatSign (pyStrip l)).2 := fun hx => hd (hsub _ hx)
  rcases hm : pyFloatMantissa (pyFloatSign (pyStrip l)).2 with _ | mag
  · rw [hm] at h
    simp at h
  · rw [hm] at h
    simp only [Option.some.injEq] at h
    obtain ⟨n, hn⟩ := pyFloatMantissa_no_dot _ hdbody _ hm
    refine ⟨n, ?_⟩
    rw [← h, hn]
    by_cases hneg : (pyFloatSign (pyStrip l)).1 <;> simp [hneg]

theorem cleanedPriceChars_mem (t : List Char) (x : Char)
    (hx : x ∈ cleanedPriceChars t) : x = '.' ∨ (x ∈ t ∧ x ≠ '.') := by
  simp only [cleanedPriceChars, List.mem_map, List.mem_filter] at hx
  obtain ⟨c, ⟨hct, hcd⟩, himg⟩ := hx
  by_cases hcc : c = ','
  · subst hcc
    simp only [if_pos rfl] at himg
    exact Or.inl himg.symm
  · simp only [hcc, if_false] at himg
    subst himg
    refine Or.inr ⟨hct, ?_⟩
    simpa using hcd

theorem cleanedPriceChars_no_dot (t : List Char) (hc : ',' ∉ t) :
    '.' ∉ cleanedPriceChars t := by
  intro hx
  simp only [cleanedPriceChars, List.mem_map, List.mem_filter] at hx
  obtain ⟨c, ⟨hct, hcd⟩, himg⟩ := hx
  by_cases hcc : c = ','
  · exact hc (hcc ▸ hct)
  · simp only [hcc, if_false] at himg
    simp [himg] at hcd

/-! ## Claim theorems -/

/-- C1: in the table extractor's stack resolution, for every product row
encountered (truthy first cell, not a header row, has price data): with
two or more stacked items the top is popped as subcategory and the next
as category, a leftover beyond those two logs one `unused_stack_items`
defect and the stack ends empty; with exactly one item it is popped as
subcategory and the category is kept; with an empty stack both previous
values are kept. -/
theorem c1_stack_resolution (num_rounds : Nat) (st : ParseState)
    (row : PdfRow) (c0 : Option String) (rest : List (Option String))
    (hrow : row = c0 :: rest)
    (htruthy : optStrTruthy c0 = true)
    (hnothdr : is_header_row row = false)
    (hfc : (⟨pyStrip (pyStrCell c0).data⟩ : String) ≠ "")
    (hprice : row_has_price_data row = true) :
    (∀ pre a b, st.stack = pre ++ [a, b] →
        (step_row num_rounds st row).category = a ∧
        (step_row num_rounds st row).subcategory = b ∧
        (step_row num_rounds st row).stack = [] ∧
        (step_row num_rounds st row).defects.count "unused_stack_items" =
          st.defects.count "unused_stack_items" + (if pre = [] then 0 else 1)) ∧
    (∀ a, st.stack = [a] →
        (step_row num_rounds st row).category = st.category ∧
        (step_row num_rounds st row).subcategory = a ∧
        (step_row num_rounds st row).stack = [] ∧
        (step_row num_rounds st row).defects.count "unused_stack_items" =
          st.defects.count "unused_stack_items") ∧
    (st.stack = [] →
        (step_row num_rounds st row).category = st.category ∧
        (step_row num_rounds st row).subcategory = st.subcategory ∧
        (step_row num_rounds st row).stack = [] ∧
        (step_row num_rounds st row).defects.count "unused_stack_items" =
          st.defects.count "unused_stack_items") := by
  subst hrow
  have hstep : ∀ (r : String × String × List String × Bool),
      resolveStack st.stack st.category st.subcategory = r →
      (step_row num_rounds st (c0 :: rest)).category = r.1 ∧
      (step_row num_rounds st (c0 :: rest)).subcategory = r.2.1 ∧
      (step_row num_rounds st (c0 :: rest)).stack = r.2.2.1 ∧
      (step_row num_rounds st (c0 :: rest)).defects.count "unused_stack_items" =
        st.defects.count "unused_stack_items" + (if r.2.2.2 then 1 else 0) := by
    intro r hr
    simp only [step_row, htruthy, Bool.not_true, Bool.false_eq_true, if_false,
      hnothdr, Bool.false_or, hprice, hr]
    rcases r with ⟨cat, sub, stk, dfl⟩
    by_cases hc : cat = "" <;>
      simp [hc, hfc, List.count_append, List.count_singleton] <;> cases dfl <;> simp
  refine ⟨?_, ?_, ?_⟩
  · intro pre a b hstack
    have h2 := resolveStack_two pre a b st.category st.subcategory
    rw [← hstack] at h2
    have := hstep _ h2
    simp only at this
    refine ⟨this.1, this.2.1, this.2.2.1, ?_⟩
    rw [this.2.2.2]
    cases pre <;> simp
  · intro a hstack
    have h1 := resolveStack_one a st.category st.subcategory
    rw [← hstack] at h1
    have := hstep _ h1
    simpa using this
  · intro hstack
    have h0 := resolveStack_nil st.category st.subcategory
    rw [← hstack] at h0
    have := hstep _ h0
    simpa [hstack] using this

/-- Witness for C1 at a concrete product row with stack `["Cat", "Sub"]`. -/
theorem c1_stack_resolution_witness :
    (step_row 1 ⟨["Cat", "Sub"], "c0", "s0", ["x"], []⟩
        [some "Papa", none, none, some "1.200", some "1.500"]).category = "Cat" ∧
    (step_row 1 ⟨["Cat", "Sub"], "c0", "s0", ["x"], []⟩
        [some "Papa", none, none, some "1.200", some "1.500"]).subcategory = "Sub" ∧
    (step_row 1 ⟨["Cat", "Sub"], "c0", "s0", ["x"], []⟩
        [some "Papa", none, none, some "1.200", some "1.500"]).stack = [] ∧
    (step_row 1 ⟨["Cat", "Sub"], "c0", "s0", ["x"], []⟩
        [some "Papa", none, none, some "1.200", some "1.500"]).defects.count
        "unused_stack_items" =
      (["x"] : List String).count "unused_stack_items" +
        (if ([] : List String) = [] then 0 else 1) :=
  (c1_stack_resolution 1 ⟨["Cat", "Sub"], "c0", "s0", ["x"], []⟩
      [some "Papa", none, none, some "1.200", some "1.500"]
      (some "Papa") [none, none, some "1.200", some "1.500"]
      rfl (by decide) (by decide) (by decide) (by decide)).1
    [] "Cat" "Sub" rfl

/-- C3 is false on the code: with the stack `[A, B, C]` (pushed A then B
then C) a product row resolves subcategory to C and category to B — the
two most recently pushed items — and discards A, not (subcategory B,
category A, C discarded) as claimed.  Shown at `A,B,C := "A","B","C"`. -/
theorem c3_counterexample :
    resolveStack ["A", "B", "C"] "prevCat" "prevSub" = ("B", "C", [], true) ∧
    resolveStack ["A", "B", "C"] "prevCat" "prevSub" ≠ ("A", "B", [], true) := by
  decide

/-- C3 amended: if the header stack holds exactly three items, pushed in
order A then B then C, a product row logs an `unused_stack_items` defect,
resolves the subcategory to C and the category to B (the first two pops,
popping from the top), discards A, and leaves the stack empty. -/
theorem c3_amended_stack_of_three (a b c category subcategory : String) :
    resolveStack [a, b, c] category subcategory = (b, c, [], true) := by
  simpa using resolveStack_two [a] b c category subcategory

/-- C10 is false on the code: the cleaning removes only dots and maps
commas to dots, so an exponent literal reaches `float()` intact and a
comma-free string input can parse to a fraction.  Shown at `"1e-5"`,
which contains no `','` yet parses to 1/100000, not a whole number. -/
theorem c10_counterexample :
    parse_price (.strc "1e-5") = some (1/100000 : ℚ) ∧
    (¬ ∃ n : ℕ, (1/100000 : ℚ) = (n : ℚ)) ∧
    ',' ∉ "1e-5".data := by
  refine ⟨?_, ?_, by decide⟩
  · simp +decide [parse_price, pyFloatChars, pyFloatMantissa, pyFloatSign,
      pyStrip, digitsToNat, digitGroupVal, validDigitGroup, noDoubleUnderscore,
      notDotChar, notExpChar, cleanedPriceChars]
    norm_num
  · rintro ⟨n, hn⟩
    have hlt : (1/100000 : ℚ) < 1 := by norm_num
    rcases Nat.eq_zero_or_pos n with h0 | hpos
    · rw [h0] at hn
      norm_num at hn
    · have h1 : (1 : ℚ) ≤ (n : ℚ) := by exact_mod_cast hpos
      rw [hn] at hlt
      linarith

/-- C10 amended: every `'.'` is removed before numeric conversion — a
dot is always a thousands separator (`"1.5"` parses to 15, not 3/2,
`"1.234,56"` to 1234.56) — but besides a `','` decimal separator and
non-string numeric inputs, an exponent in the numeric literal can also
produce a fractional result; a string with no comma, no exponent marker
and no IEEE special word parses, if at all, to a positive whole number. -/
theorem c10_amended_dot_and_exponent :
    parse_price (.strc "1.5") = some 15 ∧
    parse_price (.strc "1.5") ≠ some (3/2 : ℚ) ∧
    parse_price (.strc "1.234,56") = some (1234.56 : ℚ) ∧
    (∀ s v, parse_price (.strc s) = some v → ',' ∉ s.data →
      'e' ∉ s.data → 'E' ∉ s.data → 'i' ∉ s.data → 'I' ∉ s.data →
      0 < v ∧ ∃ n : ℕ, v = (n : ℚ)) := by
  have h15 : parse_price (.strc "1.5") = some 15 := by
    simp +decide [parse_price, pyFloatChars, pyFloatMantissa, pyFloatSign,
      pyStrip, digitsToNat, digitGroupVal, validDigitGroup, noDoubleUnderscore,
      notDotChar, notExpChar, cleanedPriceChars]
  refine ⟨h15, ?_, ?_, ?_⟩
  · rw [h15]
    intro hc
    injection hc with hv
    norm_num at hv
  · simp +decide [parse_price, pyFloatChars, pyFloatMantissa, pyFloatSign,
      pyStrip, digitsToNat, digitGroupVal, validDigitGroup, noDoubleUnderscore,
      notDotChar, notExpChar, cleanedPriceChars]
    norm_num
  · intro s v h hcomma hes hEs his hIs
    have hpos := parse_price_pos _ _ h
    refine ⟨hpos, ?_⟩
    simp only [parse_price] at h
    split at h
    · cases h
    · have hmem : ∀ x ∈ cleanedPriceChars (pyStrip s.data),
          x = '.' ∨ x ∈ s.data := by
        intro x hx
        rcases cleanedPriceChars_mem _ _ hx with h1 | ⟨h1, _⟩
        · exact Or.inl h1
        · exact Or.inr (pyStrip_subset _ _ h1)
      have hct : ',' ∉ pyStrip s.data := fun hx => hcomma (pyStrip_subset _ _ hx)
      have hnodot : '.' ∉ cleanedPriceChars (pyStrip s.data) :=
        cleanedPriceChars_no_dot _ hct
      have hnoe : 'e' ∉ cleanedPriceChars (pyStrip s.data) := by
        intro hx
        rcases hmem _ hx with h1 | h1
        · exact absurd h1 (by decide)
        · exact hes h1
      have hnoE : 'E' ∉ cleanedPriceChars (pyStrip s.data) := by
        intro hx
        rcases hmem _ hx with h1 | h1
        · exact absurd h1 (by decide)
        · exact hEs h1
      rcases hw : pyFloatChars (cleanedPriceChars (pyStrip s.data)) with _ | w
      · rw [hw] at h
        simp at h
      · rw [hw] at h
        simp only [Option.ite_none_right_eq_some, Option.some.injEq] at h
        obtain ⟨n, hn⟩ := pyFloatChars_int _ hnodot hnoe hnoE _ hw
        cases hn with
        | inl hq => exact ⟨n, by rw [← h.2, hq]⟩
        | inr hq =>
          exfalso
          rw [hq] at h
          have : (0 : ℚ) ≤ (n : ℚ) := Nat.cast_nonneg n
          have h2 := h.1
          linarith

/-- Witness for C10 amended's universally quantified part at
`s := "1.5"`. -/
theorem c10_amended_dot_and_exponent_witness :
    0 < (15 : ℚ) ∧ ∃ n : ℕ, (15 : ℚ) = (n : ℚ) :=
  c10_amended_dot_and_exponent.2.2.2 "1.5" 15
    c10_amended_dot_and_exponent.1 (by decide) (by decide) (by decide)
    (by decide) (by decide)

/-- C2 is false on the code for `parse_spanish_date`: a month name
outside the 12-entry table does not yield no-date — the month silently
defaults to `'01'`, fabricating a January date.  Shown at
`"5 de brumario de 2020"`, which returns `"2020-01-05"`. -/
theorem c2_counterexample :
    alistLookup spanishMonths "brumario" = none ∧
    alistLookup monthsEsReverse "brumario" = none ∧
    parse_spanish_date "5 de brumario de 2020" = some "2020-01-05" ∧
    parse_spanish_date "5 de brumario de 2020" ≠ none := by
  decide

/-- C2 amended: on every string whose date-pattern match yields groups
`(day, month, year)`, `parse_spanish_date` returns the correctly
assembled ISO date when the month name is in the table, but substitutes
January (`"01"`) — rather than returning no date — when it is not;
`parse_date_from_text`, by contrast, returns the correct calendar date
for table month names (`none` for invalid calendar days) and returns no
date, without raising, for month names outside the table. -/
theorem c2_amended_month_handling (s dStr mStr yStr : String) :
    (∀ mm, findDateGroups (pyTokens s) = some (dStr, mStr, yStr) →
      alistLookup spanishMonths (pyLower mStr) = some mm →
      parse_spanish_date s = some (yStr ++ "-" ++ mm ++ "-" ++ zfill2 dStr)) ∧
    (findDateGroups (pyTokens s) = some (dStr, mStr, yStr) →
      alistLookup spanishMonths (pyLower mStr) = none →
      parse_spanish_date s = some (yStr ++ "-" ++ "01" ++ "-" ++ zfill2 dStr)) ∧
    (∀ mo, findDateGroupsEs (pyTokens (pyLower ⟨pyStrip s.data⟩)) =
        some (dStr, mStr, yStr) →
      alistLookup monthsEsReverse mStr = some mo →
      s ≠ "" →
      parse_date_from_text s none = mkDatetime (strToNat yStr) mo (strToNat dStr)) ∧
    (findDateGroupsEs (pyTokens (pyLower ⟨pyStrip s.data⟩)) =
        some (dStr, mStr, yStr) →
      alistLookup monthsEsReverse mStr = none →
      parse_date_from_text s none = none) := by
  refine ⟨?_, ?_, ?_, ?_⟩
  · intro mm hg hm
    simp [parse_spanish_date, hg, hm]
  · intro hg hm
    simp [parse_spanish_date, hg, hm]
  · intro mo hg hm hne
    simp only [parse_date_from_text, hne, if_false, hg, hm]
    cases mkDatetime (strToNat yStr) mo (strToNat dStr) <;> simp
  · intro hg hm
    by_cases hne : s = ""
    · subst hne
      simp [parse_date_from_text]
    · simp [parse_date_from_text, hne, hg, hm]

/-- Witness for C2 amended at `"31 de enero de 2020"` (valid month) and
the fabricating branch at `"5 de brumario de 2020"`. -/
theorem c2_amended_month_handling_witness :
    parse_spanish_date "31 de enero de 2020" =
      some ("2020" ++ "-" ++ "01" ++ "-" ++ zfill2 "31") ∧
    parse_date_from_text "5 de brumario de 2020" none = none :=
  ⟨(c2_amended_month_handling "31 de enero de 2020" "31" "enero" "2020").1
      "01" (by decide) (by decide),
   (c2_amended_month_handling "5 de brumario de 2020" "5" "brumario" "2020").2.2.2
      (by decide) (by decide)⟩

/-- C4 is false on the code: with a "Ronda 2" marker detected and a
7-column row, a round-2 record is *not* emitted whenever at least one of
columns 5-6 parses to a positive number — both must parse.  Shown at a
row whose column 5 is `"100"` (parses, positive) and column 6 is
`"n.d."` (does not parse): only the round-1 record is emitted. -/
theorem c4_counterexample :
    detect_rounds [[some "Ronda 2"]] = 2 ∧
    parse_price (ofPdfCell (some "100")) = some 100 ∧
    parse_price (ofPdfCell (some "n.d.")) = none ∧
    (extract_prices_from_row
        [some "Papa", some "Carga", some "kg", some "1.200", some "1.500",
         some "100", some "n.d."] "Cat" "Sub" 2).map (fun p => p.round) = [1] := by
  refine ⟨by decide, ?_, by decide, ?_⟩
  · simp +decide [parse_price, ofPdfCell, pyFloatChars, pyFloatMantissa,
      pyFloatSign, pyStrip, digitsToNat, digitGroupVal, validDigitGroup,
      noDoubleUnderscore, notDotChar, notExpChar, cleanedPriceChars]
  · simp +decide [extract_prices_from_row, parse_price, ofPdfCell, pyFloatChars,
      pyFloatMantissa, pyFloatSign, pyStrip, digitsToNat, digitGroupVal,
      validDigitGroup, noDoubleUnderscore, notDotChar, notExpChar,
      cleanedPriceChars, clean_text_cell, clean_text, pyTokens, tokenizeAux,
      joinSpace, optStrTruthy]

/-- C4 amended: for a PDF product row with at least seven columns and at
least two detected rounds, a round-2 record taking columns 5 and 6 as
min/max is emitted exactly when *both* of those two values parse (the
parser only ever returns positive values, so the source's additional
"at least one positive" test is then automatic). -/
theorem c4_amended_round2_emission (row : PdfRow) (cat sub : String) (nr : Nat)
    (h7 : row.length ≥ 7) (h2 : nr ≥ 2) :
    ((∃ p ∈ extract_prices_from_row row cat sub nr, p.round = 2) ↔
      (parse_price (ofPdfCell (row.getD 5 none))).isSome ∧
      (parse_price (ofPdfCell (row.getD 6 none))).isSome) ∧
    (∀ p ∈ extract_prices_from_row row cat sub nr, p.round = 2 →
      p.min_price = parse_price (ofPdfCell (row.getD 5 none)) ∧
      p.max_price = parse_price (ofPdfCell (row.getD 6 none))) := by
  have hr5 : row.length ≥ 5 := by omega
  have hlen : (decide (row.length ≥ 7) && decide (nr ≥ 2)) = true := by
    simp [h7, h2]
  constructor
  · simp only [extract_prices_from_row, if_pos hr5]
    rw [hlen]
    simp only [if_pos]
    rcases h5 : parse_price (ofPdfCell (row.getD 5 none)) with _ | v5
    · split <;> simp
    · rcases h6 : parse_price (ofPdfCell (row.getD 6 none)) with _ | v6
      · split <;> simp
      · have hv5 := parse_price_pos _ _ h5
        split <;> simp [hv5]
  · intro p hp hr2
    simp only [extract_prices_from_row, if_pos hr5] at hp
    rw [hlen] at hp
    simp only [if_pos] at hp
    rcases List.mem_append.1 hp with hmem | hmem
    · split at hmem
      · simp only [List.mem_singleton] at hmem
        subst hmem
        simp at hr2
      · simp at hmem
    · split at hmem
      · simp only [List.mem_singleton] at hmem
        subst hmem
        exact ⟨rfl, rfl⟩
      · simp at hmem

/-- Witness for C4 amended at a concrete 7-column row where both
round-2 columns parse. -/
theorem c4_amended_round2_emission_witness :
    ((∃ p ∈ extract_prices_from_row
        [some "Papa", some "Carga", some "kg", some "1.200", some "1.500",
         some "100", some "110"] "Cat" "Sub" 2, p.round = 2) ↔
      (parse_price (ofPdfCell ((([some "Papa", some "Carga", some "kg",
          some "1.200", some "1.500", some "100", some "110"] : PdfRow)).getD 5
          none))).isSome ∧
      (parse_price (ofPdfCell ((([some "Papa", some "Carga", some "kg",
          some "1.200", some "1.500", some "100", some "110"] : PdfRow)).getD 6
          none))).isSome) ∧
    (∀ p ∈ extract_prices_from_row
        [some "Papa", some "Carga", some "kg", some "1.200", some "1.500",
         some "100", some "110"] "Cat" "Sub" 2, p.round = 2 →
      p.min_price = parse_price (ofPdfCell ((([some "Papa", some "Carga",
          some "kg", some "1.200", some "1.500", some "100", some "110"] :
          PdfRow)).getD 5 none)) ∧
      p.max_price = parse_price (ofPdfCell ((([some "Papa", some "Carga",
          some "kg", some "1.200", some "1.500", some "100", some "110"] :
          PdfRow)).getD 6 none))) :=
  c4_amended_round2_emission
    [some "Papa", some "Carga", some "kg", some "1.200", some "1.500",
     some "100", some "110"] "Cat" "Sub" 2 (by decide) (by decide)

theorem pyDateGe_iff (a b : PyDate) : pyDateGe a b = true ↔ dateLe b a := by
  unfold pyDateGe dateLe
  rcases a with ⟨y1, m1, d1⟩
  rcases b with ⟨y2, m2, d2⟩
  simp only
  by_cases h1 : y1 = y2 <;> by_cases h2 : m1 = m2 <;>
    simp [h1, h2] <;> omega

theorem dateLe_trans (a b c : PyDate) (h1 : dateLe a b) (h2 : dateLe b c) :
    dateLe a c := by
  rcases a with ⟨y1, m1, d1⟩
  rcases b with ⟨y2, m2, d2⟩
  rcases c with ⟨y3, m3, d3⟩
  unfold dateLe at h1 h2 ⊢
  dsimp only at h1 h2 ⊢
  omega

/-- C8: format selection returns `four_column` for every target date on
or after 2020-03-01, `three_column` from 2015-12-01 up to but excluding
2020-03-01, `bullet_list` from 2012-08-01 up to but excluding 2015-12-01,
`simple_links` for earlier dates, and `current` when no target date is
given; both the `current` and `four_column` formats dispatch to the
four-column table extractor. -/
theorem c8_format_eras (d : PyDate) :
    (dateLe ⟨2020, 3, 1⟩ d → get_page_format (some d) = "four_column") ∧
    (dateLe ⟨2015, 12, 1⟩ d ∧ ¬ dateLe ⟨2020, 3, 1⟩ d →
      get_page_format (some d) = "three_column") ∧
    (dateLe ⟨2012, 8, 1⟩ d ∧ ¬ dateLe ⟨2015, 12, 1⟩ d →
      get_page_format (some d) = "bullet_list") ∧
    (¬ dateLe ⟨2012, 8, 1⟩ d → get_page_format (some d) = "simple_links") ∧
    get_page_format none = "current" ∧
    chooseStrategy (get_page_format none) = ExtractStrategy.fourColumnTable ∧
    chooseStrategy "four_column" = ExtractStrategy.fourColumnTable := by
  refine ⟨?_, ?_, ?_, ?_, by decide, by decide, by decide⟩
  · intro h
    simp [get_page_format, (pyDateGe_iff d ⟨2020, 3, 1⟩).2 h]
  · rintro ⟨h1, h2⟩
    have hb1 : pyDateGe d ⟨2020, 3, 1⟩ = false := by
      rw [← Bool.not_eq_true]; exact fun hc => h2 ((pyDateGe_iff _ _).1 hc)
    simp [get_page_format, hb1, (pyDateGe_iff d ⟨2015, 12, 1⟩).2 h1]
  · rintro ⟨h1, h2⟩
    have hb1 : pyDateGe d ⟨2020, 3, 1⟩ = false := by
      rw [← Bool.not_eq_true]
      exact fun hc => h2 (dateLe_trans _ _ _ (by decide) ((pyDateGe_iff _ _).1 hc))
    have hb2 : pyDateGe d ⟨2015, 12, 1⟩ = false := by
      rw [← Bool.not_eq_true]; exact fun hc => h2 ((pyDateGe_iff _ _).1 hc)
    simp [get_page_format, hb1, hb2, (pyDateGe_iff d ⟨2012, 8, 1⟩).2 h1]
  · intro h
    have hb1 : pyDateGe d ⟨2020, 3, 1⟩ = false := by
      rw [← Bool.not_eq_true]
      exact fun hc => h (dateLe_trans _ _ _ (by decide) ((pyDateGe_iff _ _).1 hc))
    have hb2 : pyDateGe d ⟨2015, 12, 1⟩ = false := by
      rw [← Bool.not_eq_true]
      exact fun hc => h (dateLe_trans _ _ _ (by decide) ((pyDateGe_iff _ _).1 hc))
    have hb3 : pyDateGe d ⟨2012, 8, 1⟩ = false := by
      rw [← Bool.not_eq_true]; exact fun hc => h ((pyDateGe_iff _ _).1 hc)
    simp [get_page_format, hb1, hb2, hb3]

/-- Witness for C8 at one concrete date in each era. -/
theorem c8_format_eras_witness :
    get_page_format (some ⟨2021, 5, 3⟩) = "four_column" ∧
    get_page_format (some ⟨2017, 1, 15⟩) = "three_column" ∧
    get_page_format (some ⟨2013, 6, 10⟩) = "bullet_list" ∧
    get_page_format (some ⟨2012, 7, 2⟩) = "simple_links" :=
  ⟨(c8_format_eras ⟨2021, 5, 3⟩).1 (by decide),
   (c8_format_eras ⟨2017, 1, 15⟩).2.1 ⟨by decide, by decide⟩,
   (c8_format_eras ⟨2013, 6, 10⟩).2.2.1 ⟨by decide, by decide⟩,
   (c8_format_eras ⟨2012, 7, 2⟩).2.2.2.1 (by decide)⟩

theorem zipFold_failed (items : List ZipItem) (acc : ExtractionResult) :
    (items.foldl zipFoldStep acc).failed_uploads =
      acc.failed_uploads +
        ((items.map zipItemStep).filter
          (fun o => o == ItemOutcome.failedUpload)).length := by
  induction items generalizing acc with
  | nil => simp
  | cons it rest ih =>
    simp only [List.foldl_cons, List.map_cons, List.filter_cons]
    rw [ih]
    cases h : zipItemStep it <;> (simp [zipFoldStep, h]; try omega)

/-- C5: a ZIP entry is marked processed if and only if its expansion
reported zero failed uploads; an upload rejected because the object
already exists still creates the `ExtractedDocument` record and is not a
failed upload (only `failedUpload` outcomes are counted); any other
upload failure is counted and keeps the entry unprocessed. -/
theorem c5_zip_marking (e : Entry) (env : EntryEnv)
    (hz : e.ftype = FileKind.zipKind) (hr : env.raises = false) :
    ((process_entry e env).2.markedProcessed = true ↔
      (extract_and_store env.zipItems).failed_uploads = 0) ∧
    ((extract_and_store env.zipItems).failed_uploads =
      ((env.zipItems.map zipItemStep).filter
        (fun o => o == ItemOutcome.failedUpload)).length) ∧
    (∀ it id m, it.existing = ExistingDoc.absent → it.upload = .uploadFail m →
      strContains (pyLower m) "already exists" = true → it.dbCreate = some id →
      zipItemStep it = .createdDoc id) ∧
    (∀ it m, it.existing = ExistingDoc.absent → it.upload = .uploadFail m →
      strContains (pyLower m) "already exists" = false →
      strContains (pyLower m) "duplicate" = false →
      zipItemStep it = .failedUpload) := by
  refine ⟨?_, ?_, ?_, ?_⟩
  · simp [process_entry, hr, hz, finishEntry, process_zip,
      ExtractionResult.success]
  · have := zipFold_failed env.zipItems
      { pdf_ids := [], total_found := env.zipItems.length, already_processed := 0,
        newly_extracted := 0, failed_uploads := 0 }
    simpa [extract_and_store] using this
  · intro it id m h1 h2 h3 h4
    simp [zipItemStep, h1, h2, h3, h4]
  · intro it m h1 h2 h3 h4
    simp [zipItemStep, h1, h2, h3, h4]

/-- C6: an entry processed to zero price records gets exactly one
additional `no_prices_extracted` defect appended to the branch's
persisted errors — except a PDF entry whose storage path contains
`/pdf/`, which is short-circuited to processed with zero records and
zero defects; an entry with at least one record gets no such defect. -/
theorem c6_no_prices_defect (e : Entry) (env : EntryEnv)
    (hr : env.raises = false) :
    (e.ftype = FileKind.pdfKind → strContains e.storage_path "/pdf/" = true →
      process_entry e env =
        ({ entry_id := e.id, prices_extracted := 0, errors_count := 0,
           success := true },
         { persistedErrors := [], markedProcessed := true })) ∧
    ((e.ftype = FileKind.pdfKind → strContains e.storage_path "/pdf/" = false) →
      (process_entry e env).1.prices_extracted = 0 →
      (process_entry e env).2.persistedErrors =
        entryBranchErrors e env ++ ["no_prices_extracted"]) ∧
    ((e.ftype = FileKind.pdfKind → strContains e.storage_path "/pdf/" = false) →
      (process_entry e env).1.prices_extracted ≠ 0 →
      (process_entry e env).2.persistedErrors = entryBranchErrors e env) := by
  refine ⟨?_, ?_, ?_⟩
  · intro hp hb
    simp [process_entry, hr, hp, hb]
  · intro hnb hz
    rcases hf : e.ftype with _ | _ | _
    · simp only [process_entry, hr, if_false, Bool.false_eq_true, hf] at hz ⊢
      have hz' : (process_zip env.zipItems env.zipPdfs).1 = 0 := by
        simpa [finishEntry] using hz
      simp [finishEntry, entryBranchErrors, hf, hz']
    · have hb := hnb hf
      simp only [process_entry, hr, if_false, Bool.false_eq_true, hf, hb] at hz ⊢
      have hz' : env.doc.prices = 0 := by
        simpa [finishEntry, hb] using hz
      simp [finishEntry, entryBranchErrors, hf, hz', hb]
    · simp only [process_entry, hr, if_false, Bool.false_eq_true, hf] at hz ⊢
      have hz' : env.doc.prices = 0 := by
        simpa [finishEntry] using hz
      simp [finishEntry, entryBranchErrors, hf, hz']
  · intro hnb hz
    rcases hf : e.ftype with _ | _ | _
    · simp only [process_entry, hr, if_false, Bool.false_eq_true, hf] at hz ⊢
      have hz' : (process_zip env.zipItems env.zipPdfs).1 ≠ 0 := by
        intro hc
        exact hz (by simp [finishEntry, hc])
      simp [finishEntry, entryBranchErrors, hf, hz']
    · have hb := hnb hf
      simp only [process_entry, hr, if_false, Bool.false_eq_true, hf, hb] at hz ⊢
      have hz' : env.doc.prices ≠ 0 := by
        intro hc
        exact hz (by simp [finishEntry, hb, hc])
      simp [finishEntry, entryBranchErrors, hf, hz', hb]
    · simp only [process_entry, hr, if_false, Bool.false_eq_true, hf] at hz ⊢
      have hz' : env.doc.prices ≠ 0 := by
        intro hc
        exact hz (by simp [finishEntry, hc])
      simp [finishEntry, entryBranchErrors, hf, hz']

/-- C7 is false on the code: an entry that completes cleanly (no
exception, not a blocked archive, marked processed) but produces zero
price records is counted as failed — `success = success and
total_prices > 0` — and makes the exit code non-zero.  Shown on a clean
Excel entry with zero records. -/
theorem c7_counterexample :
    (process_entry ⟨4, FileKind.excelKind, "anexo.xlsx"⟩
        ⟨[], [], ⟨0, []⟩, false⟩).1.success = false ∧
    (process_entry ⟨4, FileKind.excelKind, "anexo.xlsx"⟩
        ⟨[], [], ⟨0, []⟩, false⟩).1.prices_extracted = 0 ∧
    (process_entry ⟨4, FileKind.excelKind, "anexo.xlsx"⟩
        ⟨[], [], ⟨0, []⟩, false⟩).2.markedProcessed = true ∧
    mainExitCode [(process_entry ⟨4, FileKind.excelKind, "anexo.xlsx"⟩
        ⟨[], [], ⟨0, []⟩, false⟩).1] = 1 := by
  decide

/-- C7 amended: an entry counts as succeeded iff it did not raise and
either is the bulletin-PDF short-circuit or (it is not a blocked archive
and it produced at least one price record); zero-record completion
outside the short-circuit therefore also counts as failed, and the exit
code is zero exactly when no entry failed. -/
theorem c7_amended (e : Entry) (env : EntryEnv) :
    ((process_entry e env).1.success = true ↔
      env.raises = false ∧
        ((e.ftype = FileKind.pdfKind ∧ strContains e.storage_path "/pdf/" = true) ∨
         ((e.ftype = FileKind.zipKind →
            (extract_and_store env.zipItems).failed_uploads = 0) ∧
          0 < (process_entry e env).1.prices_extracted))) ∧
    (∀ rs : List EntryResult, mainExitCode rs = 0 ↔
      rs.filter (fun r => !r.success) = []) := by
  constructor
  · by_cases hr : env.raises
    · simp [process_entry, hr]
    · rcases hf : e.ftype with _ | _ | _
      · simp only [process_entry, hr, if_false, Bool.false_eq_true, hf,
          finishEntry, process_zip, ExtractionResult.success]
        simp [beq_iff_eq]
      · by_cases hb : strContains e.storage_path "/pdf/"
        · simp [process_entry, hr, hf, hb]
        · simp only [process_entry, hr, if_false, Bool.false_eq_true, hf,
            Bool.not_eq_true] at hb ⊢
          simp [finishEntry, hb]
      · simp only [process_entry, hr, if_false, Bool.false_eq_true, hf]
        simp [finishEntry]
  · intro rs
    simp [mainExitCode, summarize, List.length_eq_zero]

theorem countByLink_of_not_downloaded (db : DownloadDB) (url : String)
    (h : is_already_downloaded db url = false) : countByLink db url = 0 := by
  simp only [is_already_downloaded, get_download_entry_by_link] at h
  rcases hf : db.entriesByLink.find? (fun p => p.1 == url) with _ | p
  · rw [List.find?_eq_none] at hf
    simp only [countByLink, List.length_eq_zero, List.filter_eq_nil_iff]
    intro a ha
    exact hf a ha
  · rw [hf] at h
    simp at h

/-- C9: the download step never creates a second `SourceEntry` for a URL
that already has one (the URL lookup short-circuits to no new row, and
at-most-one-entry-per-URL is preserved by a download); re-expanding an
archive never creates a second `ExtractedDocument` for an existing
derived storage path (processed rows are skipped, unprocessed rows are
reused by id, and a row is created only when the path was absent). -/
theorem c9_dedup :
    (∀ (db : DownloadDB) (url : String) (dry dOk uOk : Bool) (id : Nat),
      is_already_downloaded db url = true →
      download_and_store dry db url dOk uOk id = (db, none)) ∧
    (∀ (db : DownloadDB) (url u2 : String) (dry dOk uOk : Bool) (id : Nat),
      countByLink db u2 ≤ 1 →
      countByLink (download_and_store dry db url dOk uOk id).1 u2 ≤ 1) ∧
    (∀ it id, it.existing = ExistingDoc.processedDoc id →
      zipItemStep it = ItemOutcome.skippedProcessed) ∧
    (∀ it id, it.existing = ExistingDoc.unprocessedDoc id →
      zipItemStep it = ItemOutcome.reusedId id) ∧
    (∀ it id, zipItemStep it = ItemOutcome.createdDoc id →
      it.existing = ExistingDoc.absent) := by
  refine ⟨?_, ?_, ?_, ?_, ?_⟩
  · intro db url dry dOk uOk id h
    unfold download_and_store
    by_cases hdry : dry <;> simp [hdry, h]
  · intro db url u2 dry dOk uOk id hle
    unfold download_and_store
    by_cases hdry : dry
    · simpa [hdry] using hle
    · by_cases hdl : is_already_downloaded db url
      · simpa [hdry, hdl] using hle
      · rcases hdok : dOk with _ | _
        · simpa [hdry, hdl, hdok] using hle
        · rcases huok : uOk with _ | _
          · simpa [hdry, hdl, hdok, huok] using hle
          · simp only [hdry, hdl, hdok, huok, if_false, Bool.not_true,
              Bool.not_false, Bool.false_eq_true, if_true]
            by_cases hu : u2 = url
            · subst hu
              have h0 := countByLink_of_not_downloaded db u2 (by simpa using hdl)
              simp only [countByLink, List.filter_append, List.length_append] at h0 ⊢
              simp [h0]
            · have hne2 : (url == u2) = false := by
                simp only [beq_eq_false_iff_ne, ne_eq]
                exact fun hc => hu hc.symm
              simp only [countByLink, List.filter_append, List.length_append] at hle ⊢
              simpa [hne2] using hle
  · intro it id h
    simp [zipItemStep, h]
  · intro it id h
    simp [zipItemStep, h]
  · intro it id h
    unfold zipItemStep at h
    rcases he : it.existing with _ | i | i <;> rw [he] at h
    · simp at h
    · simp at h

/-- Witness for C5 at a concrete one-item archive whose upload is
rejected as a duplicate. -/
theorem c5_zip_marking_witness :
    (process_entry ⟨7, FileKind.zipKind, "2020/zip/a.zip"⟩
        ⟨[⟨ExistingDoc.absent, UploadOutcome.uploadFail "Duplicate: already exists",
           some 3⟩], [], ⟨0, []⟩, false⟩).2.markedProcessed = true ↔
      (extract_and_store [⟨ExistingDoc.absent,
          UploadOutcome.uploadFail "Duplicate: already exists",
          some 3⟩]).failed_uploads = 0 :=
  (c5_zip_marking ⟨7, FileKind.zipKind, "2020/zip/a.zip"⟩
      ⟨[⟨ExistingDoc.absent, UploadOutcome.uploadFail "Duplicate: already exists",
         some 3⟩], [], ⟨0, []⟩, false⟩ rfl rfl).1

/-- Witness for C6: the bulletin short-circuit on a `/pdf/` path, and
the appended defect on a zero-record Excel entry. -/
theorem c6_no_prices_defect_witness :
    process_entry ⟨3, FileKind.pdfKind, "2021/pdf/boletin.pdf"⟩
        ⟨[], [], ⟨5, []⟩, false⟩ =
      ({ entry_id := 3, prices_extracted := 0, errors_count := 0,
         success := true },
       { persistedErrors := [], markedProcessed := true }) ∧
    (process_entry ⟨9, FileKind.excelKind, "anexo.xls"⟩
        ⟨[], [], ⟨0, ["row_parse_error"]⟩, false⟩).2.persistedErrors =
      entryBranchErrors ⟨9, FileKind.excelKind, "anexo.xls"⟩
        ⟨[], [], ⟨0, ["row_parse_error"]⟩, false⟩ ++ ["no_prices_extracted"] :=
  ⟨(c6_no_prices_defect ⟨3, FileKind.pdfKind, "2021/pdf/boletin.pdf"⟩
      ⟨[], [], ⟨5, []⟩, false⟩ rfl).1 rfl (by decide),
   (c6_no_prices_defect ⟨9, FileKind.excelKind, "anexo.xls"⟩
      ⟨[], [], ⟨0, ["row_parse_error"]⟩, false⟩ rfl).2.1
     (fun hc => absurd hc (by decide)) (by decide)⟩

/-- Witness for C7 amended at a clean two-record Excel entry. -/
theorem c7_amended_witness :
    (process_entry ⟨4, FileKind.excelKind, "anexo.xlsx"⟩
        ⟨[], [], ⟨2, []⟩, false⟩).1.success = true ↔
      (⟨[], [], ⟨2, []⟩, false⟩ : EntryEnv).raises = false ∧
        (((⟨4, FileKind.excelKind, "anexo.xlsx"⟩ : Entry).ftype =
            FileKind.pdfKind ∧
          strContains (⟨4, FileKind.excelKind, "anexo.xlsx"⟩ : Entry).storage_path
            "/pdf/" = true) ∨
         (((⟨4, FileKind.excelKind, "anexo.xlsx"⟩ : Entry).ftype =
             FileKind.zipKind →
            (extract_and_store ([] : List ZipItem)).failed_uploads = 0) ∧
          0 < (process_entry ⟨4, FileKind.excelKind, "anexo.xlsx"⟩
              ⟨[], [], ⟨2, []⟩, false⟩).1.prices_extracted)) :=
  (c7_amended ⟨4, FileKind.excelKind, "anexo.xlsx"⟩ ⟨[], [], ⟨2, []⟩, false⟩).1

/-- Witness for C9: a URL with an existing entry is skipped unchanged. -/
theorem c9_dedup_witness :
    download_and_store false ⟨[("http://x/f.zip", 1)]⟩ "http://x/f.zip"
        true true 2 =
      (⟨[("http://x/f.zip", 1)]⟩, none) :=
  c9_dedup.1 ⟨[("http://x/f.zip", 1)]⟩ "http://x/f.zip" false true true 2
    (by decide)
